import Mathlib

/-!
Verification development for the `apicache` proxy-cache core: request
fingerprinting, the cache store contract (get/put/invalidate with TTL),
in-flight request deduplication, token-bucket rate limiting with backoff,
and the proxy-engine orchestration.

The Python package distributed by `setup.py` is not present in the tree,
so every operational definition below is modelled from the specification
document (each such definition carries a doc comment starting
`Modelled from the spec:`); claims are settled against these models.
-/

namespace Apicache

/-! ### Requests and the Fingerprinter -/

/-- An HTTP request as seen by the proxy: method, URL parts, headers and body.
The body is a byte sequence (binary-safe, no text decoding). -/
structure Request where
  method : String
  scheme : String
  host : String
  path : String
  query : List (String × String)
  headers : List (String × String)
  body : List Nat
deriving DecidableEq, Repr

/-- Modelled from the spec: lowercase normalization of a string
(applied to the method, scheme, host and header names).  Implemented over
the character list so that it evaluates by kernel reduction. -/
def lowerStr (s : String) : String := ⟨s.data.map Char.toLower⟩

/-- Modelled from the spec: the canonical request underlying the digest —
lowercased method and scheme/host, path, the query parameters as an
order-independent collection, the allow-listed headers (names lowercased)
as an order-independent collection, and the exact body bytes.
The spec obtains order-independence by sorting query parameters by name
then value and sorting the selected headers; a sorted list is a canonical
representative of the multiset of pairs, so the canonical form is modelled
as that multiset. -/
structure CanonicalRequest where
  method : String
  scheme : String
  host : String
  path : String
  query : Multiset (String × String)
  headers : Multiset (String × String)
  body : List Nat
deriving DecidableEq

/-- Modelled from the spec: the allow-list selection of headers — lowercase
each header name, keep only those whose (lowercased) name is in the
configured allow-list. -/
def selectHeaders (allow : List String) (hs : List (String × String)) :
    List (String × String) :=
  (hs.map (fun p => (lowerStr p.1, p.2))).filter (fun p => allow.contains p.1)

/-- Modelled from the spec: canonicalization of a request under a header
allow-list. -/
def canonicalize (allow : List String) (r : Request) : CanonicalRequest :=
  { method := lowerStr r.method
    scheme := lowerStr r.scheme
    host := lowerStr r.host
    path := r.path
    query := (r.query : Multiset (String × String))
    headers := (selectHeaders allow r.headers : Multiset (String × String))
    body := r.body }

/-- Modelled from the spec: a CacheKey is an opaque digest derived
deterministically from the CanonicalRequest; equal canonical requests
always yield equal keys.  The digest is modelled as the canonical request
itself (a deterministic, injective digest), since the hash implementation
is not part of the core model. -/
structure CacheKey where
  digest : CanonicalRequest
deriving DecidableEq

/-- Modelled from the spec: `fingerprint(request) -> CacheKey`, a pure
deterministic function of the canonical request. -/
def fingerprint (allow : List String) (r : Request) : CacheKey :=
  ⟨canonicalize allow r⟩

/-- Semantic equality of two requests relative to a header allow-list:
same method, scheme, host and path up to case normalization of
method/scheme/host, query parameters equal up to reordering, the same
allow-listed headers up to reordering (headers outside the allow-list may
differ arbitrarily), and identical body bytes. -/
def SemEq (allow : List String) (r₁ r₂ : Request) : Prop :=
  lowerStr r₁.method = lowerStr r₂.method ∧
  lowerStr r₁.scheme = lowerStr r₂.scheme ∧
  lowerStr r₁.host = lowerStr r₂.host ∧
  r₁.path = r₂.path ∧
  r₁.query.Perm r₂.query ∧
  (selectHeaders allow r₁.headers).Perm (selectHeaders allow r₂.headers) ∧
  r₁.body = r₂.body

instance (allow : List String) (r₁ r₂ : Request) : Decidable (SemEq allow r₁ r₂) := by
  unfold SemEq
  exact inferInstance

/-- C1: for all semantically-equal requests (same normalized method/URL/body,
headers differing only outside the allow-list, query parameters in any
order), `fingerprint` produces identical CacheKeys.  Purity and determinism
are inherent: `fingerprint` is a total function of the request and the
allow-list alone. -/
theorem fingerprint_semEq_congr (allow : List String) (r₁ r₂ : Request)
    (h : SemEq allow r₁ r₂) :
    fingerprint allow r₁ = fingerprint allow r₂ := by
  obtain ⟨hm, hs, hh, hp, hq, hhd, hb⟩ := h
  unfold fingerprint canonicalize
  refine congrArg CacheKey.mk ?_
  have hq' : (r₁.query : Multiset (String × String)) = (r₂.query : Multiset (String × String)) :=
    Quot.sound hq
  have hhd' : (selectHeaders allow r₁.headers : Multiset (String × String)) =
      (selectHeaders allow r₂.headers : Multiset (String × String)) :=
    Quot.sound hhd
  simp [hm, hs, hh, hp, hq', hhd', hb]

/-- Witness for C1, the spec's scenario: `GET /widgets?b=2&a=1` and
`get /widgets?a=1&b=2` (query reordered, method case changed, a header
outside the empty allow-list differing) are semantically equal and get the
same key. -/
theorem fingerprint_semEq_congr_witness :
    SemEq []
      { method := "GET", scheme := "https", host := "Api.Example", path := "/widgets",
        query := [("b", "2"), ("a", "1")], headers := [("X-Trace", "1")], body := [] }
      { method := "get", scheme := "HTTPS", host := "api.example", path := "/widgets",
        query := [("a", "1"), ("b", "2")], headers := [("X-Trace", "2")], body := [] } ∧
    fingerprint []
      { method := "GET", scheme := "https", host := "Api.Example", path := "/widgets",
        query := [("b", "2"), ("a", "1")], headers := [("X-Trace", "1")], body := [] } =
    fingerprint []
      { method := "get", scheme := "HTTPS", host := "api.example", path := "/widgets",
        query := [("a", "1"), ("b", "2")], headers := [("X-Trace", "2")], body := [] } :=
  ⟨by decide, fingerprint_semEq_congr _ _ _ (by decide)⟩

/-! ### The Store -/

/-- A cache entry: status, headers, body, the time it was stored, and an
optional TTL (`none` = no expiry).  Immutable once written. -/
structure CacheEntry where
  status : Nat
  headers : List (String × String)
  body : List Nat
  storedAt : Nat
  ttl : Option Nat
deriving DecidableEq, Repr

/-- The Store's persistent state: an association of keys to entries.
The freshest binding for a key is the first one. -/
structure Store where
  entries : List (CacheKey × CacheEntry)
deriving DecidableEq

/-- The empty store. -/
def Store.empty : Store := ⟨[]⟩

/-- Remove every binding for `k` (helper for put/invalidate). -/
def Store.eraseKey (s : Store) (k : CacheKey) : Store :=
  ⟨s.entries.filter (fun p => decide (p.1 ≠ k))⟩

/-- Modelled from the spec: `put(key, entry)` overwrites any existing entry
for that key. -/
def Store.put (s : Store) (k : CacheKey) (e : CacheEntry) : Store :=
  ⟨(k, e) :: (s.eraseKey k).entries⟩

/-- The raw physical lookup, ignoring TTL: whether a record for `k` is
physically present, and which one. -/
def Store.lookupRaw (s : Store) (k : CacheKey) : Option CacheEntry :=
  go s.entries
where
  go : List (CacheKey × CacheEntry) → Option CacheEntry
    | [] => none
    | p :: rest => if p.1 = k then some p.2 else go rest

/-- Modelled from the spec: an entry is expired once the time since
`storedAt` exceeds its TTL; a `none` TTL never expires. -/
def isExpired (now : Nat) (e : CacheEntry) : Bool :=
  match e.ttl with
  | none => false
  | some t => decide (e.storedAt + t < now)

/-- Modelled from the spec: `get(key) -> CacheEntry | miss`, with lazy TTL
expiry checked at read time — an expired entry yields a miss even though
the record may still be physically present. -/
def Store.get (s : Store) (now : Nat) (k : CacheKey) : Option CacheEntry :=
  match s.lookupRaw k with
  | none => none
  | some e => if isExpired now e then none else some e

/-- Modelled from the spec: `invalidate(key)` removes an entry; no-op if
absent. -/
def Store.invalidate (s : Store) (k : CacheKey) : Store :=
  s.eraseKey k

/-- Modelled from the spec: `exists(key) -> bool`, existence without
fetching the body. -/
def Store.existsKey (s : Store) (k : CacheKey) : Bool :=
  (s.lookupRaw k).isSome

theorem lookupRaw_put (s : Store) (k : CacheKey) (e : CacheEntry) :
    (s.put k e).lookupRaw k = some e := by
  simp [Store.put, Store.lookupRaw, Store.lookupRaw.go]

/-- A sample request used to instantiate store-level theorems. -/
def sampleReq : Request :=
  { method := "GET", scheme := "https", host := "h", path := "/p",
    query := [], headers := [], body := [] }

/-- The sample request's cache key. -/
def sampleKey : CacheKey := fingerprint [] sampleReq

/-- A sample cache entry stored at time 100 with a TTL of 10. -/
def sampleEntry : CacheEntry :=
  { status := 200, headers := [], body := [1, 2], storedAt := 100, ttl := some 10 }

/-- C3: `put(key, entry)` followed by `get(key)` before the entry's TTL has
elapsed returns an entry equal to the one written. -/
theorem store_put_get_roundtrip (s : Store) (k : CacheKey) (e : CacheEntry)
    (now : Nat) (h : ∀ t, e.ttl = some t → now ≤ e.storedAt + t) :
    (s.put k e).get now k = some e := by
  have hexp : isExpired now e = false := by
    unfold isExpired
    cases hT : e.ttl with
    | none => rfl
    | some t =>
      simp only [decide_eq_false_iff_not, not_lt]
      exact h t hT
  simp [Store.get, lookupRaw_put, hexp]

/-- Witness for C3 at a concrete store, key and entry within TTL. -/
theorem store_put_get_roundtrip_witness :
    (∀ t, sampleEntry.ttl = some t → 105 ≤ sampleEntry.storedAt + t) ∧
    (Store.empty.put sampleKey sampleEntry).get 105 sampleKey = some sampleEntry :=
  ⟨by decide, store_put_get_roundtrip _ _ _ _ (by decide)⟩

/-- C4: once the time since `storedAt` exceeds a non-null TTL, `get`
returns a miss even though the record is still physically present; and in
general `get` never returns expired data. -/
theorem store_get_expired_miss (s : Store) (k : CacheKey) (e : CacheEntry)
    (now t : Nat) (hT : e.ttl = some t) (hlate : e.storedAt + t < now) :
    ((s.put k e).lookupRaw k = some e ∧ (s.put k e).get now k = none) ∧
    ∀ (s' : Store) (now' : Nat) (k' : CacheKey) (e' : CacheEntry),
      s'.get now' k' = some e' → isExpired now' e' = false := by
  constructor
  · have hexp : isExpired now e = true := by
      unfold isExpired
      rw [hT]
      simpa using hlate
    exact ⟨lookupRaw_put s k e, by simp [Store.get, lookupRaw_put, hexp]⟩
  · intro s' now' k' e' hget
    unfold Store.get at hget
    cases hraw : s'.lookupRaw k' with
    | none => simp [hraw] at hget
    | some e'' =>
      rw [hraw] at hget
      by_cases hexp : isExpired now' e''
      · simp [hexp] at hget
      · simp [hexp] at hget
        subst hget
        exact eq_false_of_ne_true hexp

/-- Witness for C4: an entry with TTL 10 stored at 100 is physically
present but `get` at time 111 misses. -/
theorem store_get_expired_miss_witness :
    (sampleEntry.ttl = some 10 ∧ sampleEntry.storedAt + 10 < 111) ∧
    ((Store.empty.put sampleKey sampleEntry).lookupRaw sampleKey = some sampleEntry ∧
     (Store.empty.put sampleKey sampleEntry).get 111 sampleKey = none) ∧
    ∀ (s' : Store) (now' : Nat) (k' : CacheKey) (e' : CacheEntry),
      s'.get now' k' = some e' → isExpired now' e' = false :=
  ⟨⟨by decide, by decide⟩,
   store_get_expired_miss Store.empty sampleKey sampleEntry 111 10 (by decide) (by decide)⟩

/-- C8: `put(key, entry)` overwrites any existing entry for that key, and
`put` is idempotent — the same put twice leaves the Store exactly as
performing it once. -/
theorem store_put_overwrite_idempotent (s : Store) (k : CacheKey) (e : CacheEntry) :
    (∀ e₀ : CacheEntry, (s.put k e₀).put k e = s.put k e) ∧
    (s.put k e).lookupRaw k = some e ∧
    (s.put k e).put k e = s.put k e := by
  have herase : ∀ e₀ : CacheEntry, (s.put k e₀).eraseKey k = s.eraseKey k := by
    intro e₀
    show Store.eraseKey ⟨(k, e₀) :: (s.eraseKey k).entries⟩ k = s.eraseKey k
    unfold Store.eraseKey
    simp [List.filter_filter]
  have hput : ∀ e₀ : CacheEntry, (s.put k e₀).put k e = s.put k e := by
    intro e₀
    calc (s.put k e₀).put k e
        = ⟨(k, e) :: ((s.put k e₀).eraseKey k).entries⟩ := rfl
      _ = ⟨(k, e) :: (s.eraseKey k).entries⟩ := by rw [herase e₀]
      _ = s.put k e := rfl
  exact ⟨hput, lookupRaw_put s k e, hput e⟩

/-! ### The Rate Limiter -/

/-- Rate-limiter configuration: the backoff multiplier (default 2×), the
maximum backoff delay, and the configured 5xx status codes that count as
upstream throttling signals alongside HTTP 429. -/
structure RateConfig where
  backoffFactor : ℚ
  maxBackoff : ℚ
  retryStatuses : List Nat
deriving DecidableEq

/-- Modelled from the spec: the per-upstream-target RateBudget —
{ tokens, capacity, refillRatePerSecond, lastRefill, consecutiveFailures }.
Continuous quantities (spec: floats) are modelled as rationals. -/
structure RateBudget where
  tokens : ℚ
  capacity : ℚ
  refillRatePerSecond : ℚ
  lastRefill : ℚ
  consecutiveFailures : Nat
deriving DecidableEq

/-- Modelled from the spec: tokens refill continuously at
`refillRatePerSecond`, capped at `capacity`, accounted against the clock
reading `now`. -/
def RateBudget.refill (b : RateBudget) (now : ℚ) : RateBudget :=
  { b with
    tokens := min b.capacity (b.tokens + (now - b.lastRefill) * b.refillRatePerSecond)
    lastRefill := now }

/-- The estimated time until a full token is available at the current
refill rate (the normal-pacing wait). -/
def RateBudget.baseWait (b : RateBudget) : ℚ :=
  (1 - b.tokens) / b.refillRatePerSecond

/-- Modelled from the spec: the wait before the next call, multiplied by
the backoff factor once per consecutive failure and capped at the maximum
backoff delay. -/
def RateBudget.backoffWait (cfg : RateConfig) (b : RateBudget) : ℚ :=
  min cfg.maxBackoff (b.baseWait * cfg.backoffFactor ^ b.consecutiveFailures)

/-- The admission decision: an immediate grant, or a cooperative wait for
the given duration.  There is no error alternative — admission never
drops a call. -/
inductive Admission where
  | grant
  | wait (d : ℚ)
deriving DecidableEq

/-- Modelled from the spec: `acquire(target) -> grant | wait(duration)`.
Refill against the clock; if a full token is available consume exactly one
and grant, otherwise return the wait the caller must observe. -/
def RateBudget.acquire (cfg : RateConfig) (b : RateBudget) (now : ℚ) :
    RateBudget × Admission :=
  if 1 ≤ (b.refill now).tokens then
    ({ b.refill now with tokens := (b.refill now).tokens - 1 }, Admission.grant)
  else
    (b.refill now, Admission.wait (RateBudget.backoffWait cfg (b.refill now)))

/-- Modelled from the spec: which upstream responses count as rate-limit
signals (HTTP 429 or a configured 5xx code). -/
def isRateLimitSignal (cfg : RateConfig) (status : Nat) : Bool :=
  status == 429 || cfg.retryStatuses.contains status

/-- A successful (2xx) upstream status. -/
def isSuccess (status : Nat) : Bool :=
  decide (200 ≤ status) && decide (status < 300)

/-- Modelled from the spec: on a rate-limit signal the limiter increments
`consecutiveFailures` (entering backoff); on a subsequent success it
resets `consecutiveFailures` to zero, restoring normal pacing. -/
def RateBudget.recordResponse (b : RateBudget) (cfg : RateConfig) (status : Nat) :
    RateBudget :=
  if isRateLimitSignal cfg status then
    { b with consecutiveFailures := b.consecutiveFailures + 1 }
  else if isSuccess status then
    { b with consecutiveFailures := 0 }
  else b

/-- Per-upstream-target budgets, keyed by the target identifier. -/
def lookupTarget : List (String × RateBudget) → String → Option RateBudget
  | [], _ => none
  | p :: rest, t => if p.1 = t then some p.2 else lookupTarget rest t

/-- Apply a rate-limiter state change to a single target's budget. -/
def updateTarget (m : List (String × RateBudget)) (t : String)
    (f : RateBudget → RateBudget) : List (String × RateBudget) :=
  m.map (fun p => if p.1 = t then (p.1, f p.2) else p)

/-- C6: token-bucket pacing.  Tokens are capped at `capacity`; a granted
call consumes exactly one token; a call issued while no full token is
available is answered with a wait for the estimated refill time — never
dropped and never an error — and retrying after exactly that wait is
granted. -/
theorem rateLimiter_tokenBucket (cfg : RateConfig) (b : RateBudget) (now : ℚ)
    (hcf : b.consecutiveFailures = 0)
    (hrate : 0 < b.refillRatePerSecond)
    (hcap : 1 ≤ b.capacity)
    (hlow : (b.refill now).tokens < 1)
    (hmb : (b.refill now).baseWait ≤ cfg.maxBackoff) :
    (∀ (b₂ : RateBudget) (now₂ : ℚ),
       ((RateBudget.acquire cfg b₂ now₂).1).tokens ≤ b₂.capacity) ∧
    (∀ (b₂ : RateBudget) (now₂ : ℚ),
       (RateBudget.acquire cfg b₂ now₂).2 = Admission.grant →
       ((RateBudget.acquire cfg b₂ now₂).1).tokens = (b₂.refill now₂).tokens - 1) ∧
    (RateBudget.acquire cfg b now).2 = Admission.wait ((b.refill now).baseWait) ∧
    (RateBudget.acquire cfg (RateBudget.acquire cfg b now).1
       (now + (b.refill now).baseWait)).2 = Admission.grant := by
  have hnotle : ¬ (1 ≤ (b.refill now).tokens) := not_le.mpr hlow
  have hcapped : ∀ (b₂ : RateBudget) (now₂ : ℚ),
      ((RateBudget.acquire cfg b₂ now₂).1).tokens ≤ b₂.capacity := by
    intro b₂ now₂
    have hmin : (b₂.refill now₂).tokens ≤ b₂.capacity := min_le_left _ _
    unfold RateBudget.acquire
    by_cases h : 1 ≤ (b₂.refill now₂).tokens
    · rw [if_pos h]
      exact le_trans (sub_le_self _ zero_le_one) hmin
    · rw [if_neg h]
      exact hmin
  have hconsume : ∀ (b₂ : RateBudget) (now₂ : ℚ),
      (RateBudget.acquire cfg b₂ now₂).2 = Admission.grant →
      ((RateBudget.acquire cfg b₂ now₂).1).tokens = (b₂.refill now₂).tokens - 1 := by
    intro b₂ now₂ hg
    unfold RateBudget.acquire at hg ⊢
    by_cases h : 1 ≤ (b₂.refill now₂).tokens
    · rw [if_pos h]
    · rw [if_neg h] at hg
      exact absurd hg (by simp)
  have hfst : (RateBudget.acquire cfg b now).1 = b.refill now := by
    unfold RateBudget.acquire
    rw [if_neg hnotle]
  have hwaitEq : RateBudget.backoffWait cfg (b.refill now) = (b.refill now).baseWait := by
    unfold RateBudget.backoffWait
    have hcf' : (b.refill now).consecutiveFailures = 0 := hcf
    rw [hcf', pow_zero, mul_one]
    exact min_eq_right hmb
  have hwait : (RateBudget.acquire cfg b now).2 =
      Admission.wait ((b.refill now).baseWait) := by
    unfold RateBudget.acquire
    rw [if_neg hnotle, hwaitEq]
  have htok : ((b.refill now).refill (now + (b.refill now).baseWait)).tokens = 1 := by
    show min (b.refill now).capacity
        ((b.refill now).tokens +
          ((now + (b.refill now).baseWait) - (b.refill now).lastRefill) *
            (b.refill now).refillRatePerSecond) = 1
    have h1 : (now + (b.refill now).baseWait) - (b.refill now).lastRefill =
        (b.refill now).baseWait := by
      show (now + (b.refill now).baseWait) - now = (b.refill now).baseWait
      exact add_sub_cancel_left now _
    rw [h1]
    have h2 : (b.refill now).baseWait * (b.refill now).refillRatePerSecond =
        1 - (b.refill now).tokens := by
      unfold RateBudget.baseWait
      exact div_mul_cancel₀ _ (ne_of_gt hrate)
    rw [h2]
    have h3 : (b.refill now).tokens + (1 - (b.refill now).tokens) = 1 := by ring
    rw [h3]
    exact min_eq_right hcap
  have hgrant : (RateBudget.acquire cfg (RateBudget.acquire cfg b now).1
      (now + (b.refill now).baseWait)).2 = Admission.grant := by
    rw [hfst]
    unfold RateBudget.acquire
    rw [if_pos htok.ge]
  exact ⟨hcapped, hconsume, hwait, hgrant⟩

/-- A sample budget for the rate-limiter witnesses: empty bucket of
capacity 1, refilling one token per second, no failures yet. -/
def sampleBudget : RateBudget :=
  { tokens := 0, capacity := 1, refillRatePerSecond := 1, lastRefill := 0,
    consecutiveFailures := 0 }

/-- A sample rate-limiter configuration: backoff factor 2, maximum
backoff 2 seconds, backoff also on 500 and 503. -/
def sampleCfg : RateConfig :=
  { backoffFactor := 2, maxBackoff := 2, retryStatuses := [500, 503] }

/-- Witness for C6 at the sample budget with the bucket empty at time 0. -/
theorem rateLimiter_tokenBucket_witness :
    (sampleBudget.consecutiveFailures = 0 ∧
     0 < sampleBudget.refillRatePerSecond ∧
     1 ≤ sampleBudget.capacity ∧
     (sampleBudget.refill 0).tokens < 1 ∧
     (sampleBudget.refill 0).baseWait ≤ sampleCfg.maxBackoff) ∧
    ((RateBudget.acquire sampleCfg sampleBudget 0).2 =
       Admission.wait ((sampleBudget.refill 0).baseWait) ∧
     (RateBudget.acquire sampleCfg (RateBudget.acquire sampleCfg sampleBudget 0).1
        (0 + (sampleBudget.refill 0).baseWait)).2 = Admission.grant) :=
  ⟨⟨rfl, by decide,
    by decide,
    by simp [sampleBudget, RateBudget.refill],
    by simp [sampleBudget, sampleCfg, RateBudget.refill, RateBudget.baseWait]⟩,
   ⟨(rateLimiter_tokenBucket sampleCfg sampleBudget 0 rfl (by decide) (by decide)
       (by simp [sampleBudget, RateBudget.refill])
       (by simp [sampleBudget, sampleCfg, RateBudget.refill, RateBudget.baseWait])).2.2.1,
    (rateLimiter_tokenBucket sampleCfg sampleBudget 0 rfl (by decide) (by decide)
       (by simp [sampleBudget, RateBudget.refill])
       (by simp [sampleBudget, sampleCfg, RateBudget.refill, RateBudget.baseWait])).2.2.2⟩⟩

/-- C7: backoff behaviour.  A rate-limit signal (HTTP 429 or a configured
5xx code) increments `consecutiveFailures` and multiplies the next wait
for that target by the configured factor (while under the maximum-delay
cap); a subsequent success resets `consecutiveFailures` to zero and
restores normal pacing (the plain refill wait, still capped).  Backoff
state is per-upstream-target: updating one target's budget leaves every
other target's budget unchanged. -/
theorem rateLimiter_backoff (cfg : RateConfig) (b : RateBudget)
    (status₁ status₂ : Nat) (m : List (String × RateBudget)) (t t' : String)
    (f : RateBudget → RateBudget)
    (hsig : isRateLimitSignal cfg status₁ = true)
    (hf : 1 ≤ cfg.backoffFactor)
    (hw0 : 0 ≤ b.baseWait)
    (hcap : b.baseWait * cfg.backoffFactor ^ (b.consecutiveFailures + 1) ≤ cfg.maxBackoff)
    (hsig2 : isRateLimitSignal cfg status₂ = false)
    (hsucc : isSuccess status₂ = true)
    (hne : t' ≠ t) :
    (b.recordResponse cfg status₁).consecutiveFailures = b.consecutiveFailures + 1 ∧
    RateBudget.backoffWait cfg (b.recordResponse cfg status₁) =
      cfg.backoffFactor * RateBudget.backoffWait cfg b ∧
    (b.recordResponse cfg status₂).consecutiveFailures = 0 ∧
    RateBudget.backoffWait cfg (b.recordResponse cfg status₂) =
      min cfg.maxBackoff b.baseWait ∧
    lookupTarget (updateTarget m t f) t' = lookupTarget m t' := by
  have hrec1 : b.recordResponse cfg status₁ =
      { b with consecutiveFailures := b.consecutiveFailures + 1 } := by
    unfold RateBudget.recordResponse
    rw [if_pos hsig]
  have hrec2 : b.recordResponse cfg status₂ = { b with consecutiveFailures := 0 } := by
    unfold RateBudget.recordResponse
    rw [if_neg (by simp [hsig2]), if_pos hsucc]
  have hstep : b.baseWait * cfg.backoffFactor ^ b.consecutiveFailures ≤
      b.baseWait * cfg.backoffFactor ^ (b.consecutiveFailures + 1) :=
    mul_le_mul_of_nonneg_left
      (pow_le_pow_right₀ hf (Nat.le_succ b.consecutiveFailures)) hw0
  have hmul : RateBudget.backoffWait cfg (b.recordResponse cfg status₁) =
      cfg.backoffFactor * RateBudget.backoffWait cfg b := by
    rw [hrec1]
    unfold RateBudget.backoffWait
    have hbw : RateBudget.baseWait
        { b with consecutiveFailures := b.consecutiveFailures + 1 } = b.baseWait := rfl
    rw [hbw]
    show min cfg.maxBackoff (b.baseWait * cfg.backoffFactor ^ (b.consecutiveFailures + 1)) =
      cfg.backoffFactor *
        min cfg.maxBackoff (b.baseWait * cfg.backoffFactor ^ b.consecutiveFailures)
    rw [min_eq_right hcap, min_eq_right (le_trans hstep hcap)]
    ring
  have hreset : RateBudget.backoffWait cfg (b.recordResponse cfg status₂) =
      min cfg.maxBackoff b.baseWait := by
    rw [hrec2]
    unfold RateBudget.backoffWait
    have hbw : RateBudget.baseWait { b with consecutiveFailures := 0 } = b.baseWait := rfl
    rw [hbw, pow_zero, mul_one]
  have hframe : ∀ (m' : List (String × RateBudget)),
      lookupTarget (updateTarget m' t f) t' = lookupTarget m' t' := by
    intro m'
    induction m' with
    | nil => rfl
    | cons p rest ih =>
      unfold updateTarget at ih ⊢
      by_cases hp : p.1 = t
      · have hp' : ¬ (p.1 = t') := fun hc => hne (hc ▸ hp ▸ rfl)
        simp only [List.map_cons, if_pos hp]
        unfold lookupTarget
        rw [if_neg hp', if_neg hp']
        exact ih
      · simp only [List.map_cons, if_neg hp]
        unfold lookupTarget
        by_cases hq : p.1 = t'
        · rw [if_pos hq, if_pos hq]
        · rw [if_neg hq, if_neg hq]
          exact ih
  refine ⟨by rw [hrec1], hmul, by rw [hrec2], hreset, hframe m⟩

/-- Witness for C7: a 429 followed by a 200 on the sample budget, and
target isolation between two named targets. -/
theorem rateLimiter_backoff_witness :
    (isRateLimitSignal sampleCfg 429 = true ∧
     1 ≤ sampleCfg.backoffFactor ∧
     0 ≤ sampleBudget.baseWait ∧
     sampleBudget.baseWait *
       sampleCfg.backoffFactor ^ (sampleBudget.consecutiveFailures + 1) ≤
       sampleCfg.maxBackoff ∧
     isRateLimitSignal sampleCfg 200 = false ∧
     isSuccess 200 = true ∧
     ("other" : String) ≠ "api") ∧
    ((sampleBudget.recordResponse sampleCfg 429).consecutiveFailures =
       sampleBudget.consecutiveFailures + 1 ∧
     (sampleBudget.recordResponse sampleCfg 200).consecutiveFailures = 0 ∧
     lookupTarget (updateTarget [("api", sampleBudget)] "api"
       (fun b => b.recordResponse sampleCfg 429)) "other" =
       lookupTarget [("api", sampleBudget)] "other") := by
  have h4 : sampleBudget.baseWait *
      sampleCfg.backoffFactor ^ (sampleBudget.consecutiveFailures + 1) ≤
      sampleCfg.maxBackoff := by
    simp [sampleBudget, sampleCfg, RateBudget.baseWait]
  have main := rateLimiter_backoff sampleCfg sampleBudget 429 200
    [("api", sampleBudget)] "api" "other" (fun b => b.recordResponse sampleCfg 429)
    (by decide) (by decide) (by simp [sampleBudget, RateBudget.baseWait]) h4
    (by decide) (by decide) (by decide)
  exact ⟨⟨by decide, by decide, by simp [sampleBudget, RateBudget.baseWait], h4,
          by decide, by decide, by decide⟩,
         ⟨main.1, main.2.2.1, main.2.2.2.2⟩⟩

/-! ### Dedup Coordinator and Proxy Engine -/

/-- An upstream HTTP response: status, headers, body. -/
structure Response where
  status : Nat
  headers : List (String × String)
  body : List Nat
deriving DecidableEq, Repr

/-- The outcome of one upstream call: a response, or an UpstreamError
(network failure, non-2xx treated as error by the caller, or timeout),
modelled as its message. -/
inductive UpstreamResult where
  | success (resp : Response)
  | failure (err : String)
deriving DecidableEq, Repr

/-- What a caller is eventually handed: a stored entry served verbatim on
a hit, or the shared upstream result of its dedup round. -/
inductive Delivery where
  | fromCache (e : CacheEntry)
  | fromUpstream (r : UpstreamResult)
deriving DecidableEq, Repr

/-- Proxy-engine configuration: the fingerprint header allow-list and the
default TTL written with new entries. -/
structure ProxyConfig where
  allow : List String
  ttl : Option Nat
deriving DecidableEq

/-- The observable state of the proxy core: the Store, the Dedup
Coordinator's in-flight slots (key with the callers attached to it), the
log of upstream calls issued, the log of Store writes, the number of Rate
Limiter acquisitions, and the results delivered to callers. -/
structure ProxyState where
  store : Store
  slots : List (CacheKey × List Nat)
  callLog : List CacheKey
  writeLog : List CacheKey
  limiterAcquires : Nat
  delivered : List (Nat × Delivery)
deriving DecidableEq

/-- External events driving the machine: a caller's request arriving at a
given time, and the completion of the in-flight upstream call for a key. -/
inductive PEvent where
  | request (caller : Nat) (now : Nat) (req : Request)
  | complete (now : Nat) (key : CacheKey) (result : UpstreamResult)
deriving DecidableEq

/-- Find the in-flight slot for a key, if any. -/
def lookupSlot : List (CacheKey × List Nat) → CacheKey → Option (List Nat)
  | [], _ => none
  | p :: rest, k => if p.1 = k then some p.2 else lookupSlot rest k

/-- Attach a caller as a waiter on the existing slot for `k`. -/
def attachSlot (slots : List (CacheKey × List Nat)) (k : CacheKey) (c : Nat) :
    List (CacheKey × List Nat) :=
  slots.map (fun p => if p.1 = k then (p.1, p.2 ++ [c]) else p)

/-- Destroy the slot for `k` once its round has completed. -/
def removeSlot (slots : List (CacheKey × List Nat)) (k : CacheKey) :
    List (CacheKey × List Nat) :=
  slots.filter (fun p => decide (p.1 ≠ k))

/-- The cache entry written for a successful upstream response at `now`
with the configured TTL. -/
def entryOf (resp : Response) (now : Nat) (ttl : Option Nat) : CacheEntry :=
  { status := resp.status, headers := resp.headers, body := resp.body,
    storedAt := now, ttl := ttl }

/-- Modelled from the spec: one transition of the proxy core.
On a request: fingerprint, check the Store; on a hit deliver the entry
verbatim, touching neither the Rate Limiter nor the Dedup Coordinator.
On a miss: if a slot is in flight for the key, attach as a waiter (no
rate-limiter acquisition, no upstream call); otherwise create the slot,
acquire the Rate Limiter and issue the upstream call.
On completion of the call for a key: release every waiter of that round
with the same result and destroy the slot; a successful response is also
written to the Store (one write), a failure is never cached. -/
def step (cfg : ProxyConfig) (s : ProxyState) : PEvent → ProxyState
  | .request c now r =>
    match s.store.get now (fingerprint cfg.allow r) with
    | some e => { s with delivered := s.delivered ++ [(c, Delivery.fromCache e)] }
    | none =>
      match lookupSlot s.slots (fingerprint cfg.allow r) with
      | some _ => { s with slots := attachSlot s.slots (fingerprint cfg.allow r) c }
      | none =>
        { s with
          slots := (fingerprint cfg.allow r, [c]) :: s.slots
          limiterAcquires := s.limiterAcquires + 1
          callLog := s.callLog ++ [fingerprint cfg.allow r] }
  | .complete now k res =>
    match lookupSlot s.slots k, res with
    | none, _ => s
    | some cs, .success resp =>
      { s with
        slots := removeSlot s.slots k
        delivered := s.delivered ++
          cs.map (fun c => (c, Delivery.fromUpstream (UpstreamResult.success resp)))
        store := s.store.put k (entryOf resp now cfg.ttl)
        writeLog := s.writeLog ++ [k] }
    | some cs, .failure err =>
      { s with
        slots := removeSlot s.slots k
        delivered := s.delivered ++
          cs.map (fun c => (c, Delivery.fromUpstream (UpstreamResult.failure err))) }

/-- Run the machine over a sequence of events. -/
def run (cfg : ProxyConfig) (s : ProxyState) (events : List PEvent) : ProxyState :=
  events.foldl (step cfg) s

/-- The cold initial state: empty store, no slots, nothing delivered. -/
def coldState : ProxyState :=
  { store := Store.empty, slots := [], callLog := [], writeLog := [],
    limiterAcquires := 0, delivered := [] }

/-- A burst of N concurrent callers with an identical request on a cold
cache, followed by the completion of the single in-flight call. -/
def burstTrace (cfg : ProxyConfig) (N now now' : Nat) (r : Request)
    (res : UpstreamResult) : List PEvent :=
  (List.range N).map (fun c => PEvent.request c now r) ++
    [PEvent.complete now' (fingerprint cfg.allow r) res]

/-- The dedup invariant: at most one InFlightSlot exists per CacheKey. -/
def slotKeysNodup (s : ProxyState) : Prop :=
  (s.slots.map Prod.fst).Nodup

theorem step_request_hit (cfg : ProxyConfig) (s : ProxyState) (c now : Nat)
    (r : Request) (e : CacheEntry)
    (h : s.store.get now (fingerprint cfg.allow r) = some e) :
    step cfg s (PEvent.request c now r) =
      { s with delivered := s.delivered ++ [(c, Delivery.fromCache e)] } := by
  simp only [step, h]

theorem step_request_attach (cfg : ProxyConfig) (s : ProxyState) (c now : Nat)
    (r : Request) (cs : List Nat)
    (hget : s.store.get now (fingerprint cfg.allow r) = none)
    (hsl : lookupSlot s.slots (fingerprint cfg.allow r) = some cs) :
    step cfg s (PEvent.request c now r) =
      { s with slots := attachSlot s.slots (fingerprint cfg.allow r) c } := by
  simp only [step, hget, hsl]

theorem step_request_create (cfg : ProxyConfig) (s : ProxyState) (c now : Nat)
    (r : Request)
    (hget : s.store.get now (fingerprint cfg.allow r) = none)
    (hsl : lookupSlot s.slots (fingerprint cfg.allow r) = none) :
    step cfg s (PEvent.request c now r) =
      { s with
        slots := (fingerprint cfg.allow r, [c]) :: s.slots
        limiterAcquires := s.limiterAcquires + 1
        callLog := s.callLog ++ [fingerprint cfg.allow r] } := by
  simp only [step, hget, hsl]

theorem step_complete_success (cfg : ProxyConfig) (s : ProxyState) (now : Nat)
    (k : CacheKey) (resp : Response) (cs : List Nat)
    (hsl : lookupSlot s.slots k = some cs) :
    step cfg s (PEvent.complete now k (UpstreamResult.success resp)) =
      { s with
        slots := removeSlot s.slots k
        delivered := s.delivered ++
          cs.map (fun c => (c, Delivery.fromUpstream (UpstreamResult.success resp)))
        store := s.store.put k (entryOf resp now cfg.ttl)
        writeLog := s.writeLog ++ [k] } := by
  simp only [step, hsl]

theorem step_complete_failure (cfg : ProxyConfig) (s : ProxyState) (now : Nat)
    (k : CacheKey) (err : String) (cs : List Nat)
    (hsl : lookupSlot s.slots k = some cs) :
    step cfg s (PEvent.complete now k (UpstreamResult.failure err)) =
      { s with
        slots := removeSlot s.slots k
        delivered := s.delivered ++
          cs.map (fun c => (c, Delivery.fromUpstream (UpstreamResult.failure err))) } := by
  simp only [step, hsl]

theorem lookupSlot_none_notMem (sl : List (CacheKey × List Nat)) (k : CacheKey)
    (h : lookupSlot sl k = none) : k ∉ sl.map Prod.fst := by
  induction sl with
  | nil => simp
  | cons p rest ih =>
    unfold lookupSlot at h
    by_cases hp : p.1 = k
    · rw [if_pos hp] at h
      exact absurd h (by simp)
    · rw [if_neg hp] at h
      intro hmem
      rcases List.mem_cons.mp hmem with hc | hc
      · exact hp hc.symm
      · exact ih h hc

theorem attachSlot_map_fst (sl : List (CacheKey × List Nat)) (k : CacheKey) (c : Nat) :
    (attachSlot sl k c).map Prod.fst = sl.map Prod.fst := by
  induction sl with
  | nil => rfl
  | cons p rest ih =>
    unfold attachSlot at ih ⊢
    by_cases hp : p.1 = k
    · simp only [List.map_cons, if_pos hp]
      rw [ih]
    · simp only [List.map_cons, if_neg hp]
      rw [ih]

theorem step_preserves_nodup (cfg : ProxyConfig) (s : ProxyState) (ev : PEvent)
    (h : slotKeysNodup s) : slotKeysNodup (step cfg s ev) := by
  cases ev with
  | request c now r =>
    cases hget : s.store.get now (fingerprint cfg.allow r) with
    | some e =>
      rw [step_request_hit cfg s c now r e hget]
      exact h
    | none =>
      cases hsl : lookupSlot s.slots (fingerprint cfg.allow r) with
      | some cs =>
        rw [step_request_attach cfg s c now r cs hget hsl]
        show ((attachSlot s.slots (fingerprint cfg.allow r) c).map Prod.fst).Nodup
        rw [attachSlot_map_fst]
        exact h
      | none =>
        rw [step_request_create cfg s c now r hget hsl]
        show ((fingerprint cfg.allow r) :: s.slots.map Prod.fst).Nodup
        exact List.nodup_cons.mpr ⟨lookupSlot_none_notMem _ _ hsl, h⟩
  | complete now k res =>
    cases hsl : lookupSlot s.slots k with
    | none =>
      show slotKeysNodup (match lookupSlot s.slots k, res with
        | none, _ => s
        | some cs, UpstreamResult.success resp =>
          { s with
            slots := removeSlot s.slots k
            delivered := s.delivered ++
              cs.map (fun c => (c, Delivery.fromUpstream (UpstreamResult.success resp)))
            store := s.store.put k (entryOf resp now cfg.ttl)
            writeLog := s.writeLog ++ [k] }
        | some cs, UpstreamResult.failure err =>
          { s with
            slots := removeSlot s.slots k
            delivered := s.delivered ++
              cs.map (fun c => (c, Delivery.fromUpstream (UpstreamResult.failure err))) })
      rw [hsl]
      exact h
    | some cs =>
      have hsub : ((removeSlot s.slots k).map Prod.fst).Nodup :=
        List.Nodup.sublist ((List.filter_sublist _).map Prod.fst) h
      cases res with
      | success resp =>
        rw [step_complete_success cfg s now k resp cs hsl]
        exact hsub
      | failure err =>
        rw [step_complete_failure cfg s now k err cs hsl]
        exact hsub

theorem run_preserves_nodup (cfg : ProxyConfig) (events : List PEvent) :
    ∀ s : ProxyState, slotKeysNodup s → slotKeysNodup (run cfg s events) := by
  induction events with
  | nil => intro s h; exact h
  | cons e es ih =>
    intro s h
    exact ih (step cfg s e) (step_preserves_nodup cfg s e h)

theorem run_arrivals (cfg : ProxyConfig) (now : Nat) (r : Request) :
    ∀ N : Nat, 1 ≤ N →
    run cfg coldState ((List.range N).map (fun c => PEvent.request c now r)) =
      { store := Store.empty, slots := [(fingerprint cfg.allow r, List.range N)],
        callLog := [fingerprint cfg.allow r], writeLog := [],
        limiterAcquires := 1, delivered := [] } := by
  intro N hN
  induction N, hN using Nat.le_induction with
  | base => rfl
  | succ N hN ih =>
    have hsplit : (List.range (N + 1)).map (fun c => PEvent.request c now r) =
        (List.range N).map (fun c => PEvent.request c now r) ++
          [PEvent.request N now r] := by
      rw [List.range_succ, List.map_append]
      rfl
    rw [hsplit]
    show run cfg coldState _ = _
    unfold run at ih ⊢
    rw [List.foldl_append, ih, List.foldl_cons, List.foldl_nil]
    rw [step_request_attach cfg
      { store := Store.empty, slots := [(fingerprint cfg.allow r, List.range N)],
        callLog := [fingerprint cfg.allow r], writeLog := [],
        limiterAcquires := 1, delivered := [] }
      N now r (List.range N) rfl (by simp [lookupSlot])]
    simp [attachSlot, List.range_succ]

theorem run_burst_success (cfg : ProxyConfig) (N now now' : Nat) (r : Request)
    (resp : Response) (hN : 1 ≤ N) :
    run cfg coldState (burstTrace cfg N now now' r (UpstreamResult.success resp)) =
      { store := Store.empty.put (fingerprint cfg.allow r) (entryOf resp now' cfg.ttl),
        slots := [], callLog := [fingerprint cfg.allow r],
        writeLog := [fingerprint cfg.allow r], limiterAcquires := 1,
        delivered := (List.range N).map
          (fun c => (c, Delivery.fromUpstream (UpstreamResult.success resp))) } := by
  have h := run_arrivals cfg now r N hN
  unfold burstTrace run
  unfold run at h
  rw [List.foldl_append, h, List.foldl_cons, List.foldl_nil]
  rw [step_complete_success cfg
    { store := Store.empty, slots := [(fingerprint cfg.allow r, List.range N)],
        callLog := [fingerprint cfg.allow r], writeLog := [],
        limiterAcquires := 1, delivered := [] }
    now' (fingerprint cfg.allow r) resp (List.range N) (by simp [lookupSlot])]
  simp [removeSlot]

theorem run_burst_failure (cfg : ProxyConfig) (N now now' : Nat) (r : Request)
    (err : String) (hN : 1 ≤ N) :
    run cfg coldState (burstTrace cfg N now now' r (UpstreamResult.failure err)) =
      { store := Store.empty, slots := [], callLog := [fingerprint cfg.allow r],
        writeLog := [], limiterAcquires := 1,
        delivered := (List.range N).map
          (fun c => (c, Delivery.fromUpstream (UpstreamResult.failure err))) } := by
  have h := run_arrivals cfg now r N hN
  unfold burstTrace run
  unfold run at h
  rw [List.foldl_append, h, List.foldl_cons, List.foldl_nil]
  rw [step_complete_failure cfg
    { store := Store.empty, slots := [(fingerprint cfg.allow r, List.range N)],
        callLog := [fingerprint cfg.allow r], writeLog := [],
        limiterAcquires := 1, delivered := [] }
    now' (fingerprint cfg.allow r) err (List.range N) (by simp [lookupSlot])]
  simp [removeSlot]

/-- C2: single-flight deduplication.  For any N ≥ 1 concurrent callers
with an identical fingerprint on a cold cache, exactly one upstream call
is issued and all N callers receive the same result; at most one
InFlightSlot exists per CacheKey at any reachable instant; and a caller
that finds a slot in flight attaches as a waiter, performing no upstream
call and no rate-limiter acquisition. -/
theorem dedup_single_flight (cfg : ProxyConfig) (N now now' : Nat) (r : Request)
    (res : UpstreamResult) (hN : 1 ≤ N) :
    (run cfg coldState (burstTrace cfg N now now' r res)).callLog =
      [fingerprint cfg.allow r] ∧
    (run cfg coldState (burstTrace cfg N now now' r res)).delivered =
      (List.range N).map (fun c => (c, Delivery.fromUpstream res)) ∧
    (∀ events : List PEvent, slotKeysNodup (run cfg coldState events)) ∧
    (∀ (s : ProxyState) (c now₂ : Nat) (r₂ : Request) (cs : List Nat),
      s.store.get now₂ (fingerprint cfg.allow r₂) = none →
      lookupSlot s.slots (fingerprint cfg.allow r₂) = some cs →
      (step cfg s (PEvent.request c now₂ r₂)).callLog = s.callLog ∧
      (step cfg s (PEvent.request c now₂ r₂)).limiterAcquires = s.limiterAcquires) := by
  have hinv : ∀ events : List PEvent, slotKeysNodup (run cfg coldState events) := by
    intro events
    exact run_preserves_nodup cfg events coldState (by simp [slotKeysNodup, coldState])
  have hattach : ∀ (s : ProxyState) (c now₂ : Nat) (r₂ : Request) (cs : List Nat),
      s.store.get now₂ (fingerprint cfg.allow r₂) = none →
      lookupSlot s.slots (fingerprint cfg.allow r₂) = some cs →
      (step cfg s (PEvent.request c now₂ r₂)).callLog = s.callLog ∧
      (step cfg s (PEvent.request c now₂ r₂)).limiterAcquires = s.limiterAcquires := by
    intro s c now₂ r₂ cs hget hsl
    rw [step_request_attach cfg s c now₂ r₂ cs hget hsl]
    exact ⟨rfl, rfl⟩
  cases res with
  | success resp =>
    rw [run_burst_success cfg N now now' r resp hN]
    exact ⟨rfl, rfl, hinv, hattach⟩
  | failure err =>
    rw [run_burst_failure cfg N now now' r err hN]
    exact ⟨rfl, rfl, hinv, hattach⟩

/-- The proxy configuration used by the concrete witnesses: empty header
allow-list, default TTL of 10. -/
def sampleProxyCfg : ProxyConfig := { allow := [], ttl := some 10 }

/-- A sample successful upstream response. -/
def sampleResp : Response := { status := 200, headers := [], body := [5] }

/-- Witness for C2: three concurrent callers for the sample request on a
cold cache, one successful completion. -/
theorem dedup_single_flight_witness :
    1 ≤ 3 ∧
    ((run sampleProxyCfg coldState
        (burstTrace sampleProxyCfg 3 0 1 sampleReq
          (UpstreamResult.success sampleResp))).callLog =
      [fingerprint sampleProxyCfg.allow sampleReq] ∧
     (run sampleProxyCfg coldState
        (burstTrace sampleProxyCfg 3 0 1 sampleReq
          (UpstreamResult.success sampleResp))).delivered =
      (List.range 3).map
        (fun c => (c, Delivery.fromUpstream (UpstreamResult.success sampleResp))) ∧
     (∀ events : List PEvent,
        slotKeysNodup (run sampleProxyCfg coldState events)) ∧
     (∀ (s : ProxyState) (c now₂ : Nat) (r₂ : Request) (cs : List Nat),
       s.store.get now₂ (fingerprint sampleProxyCfg.allow r₂) = none →
       lookupSlot s.slots (fingerprint sampleProxyCfg.allow r₂) = some cs →
       (step sampleProxyCfg s (PEvent.request c now₂ r₂)).callLog = s.callLog ∧
       (step sampleProxyCfg s (PEvent.request c now₂ r₂)).limiterAcquires =
         s.limiterAcquires)) :=
  ⟨by decide,
   dedup_single_flight sampleProxyCfg 3 0 1 sampleReq
     (UpstreamResult.success sampleResp) (by decide)⟩

/-- C5: a failed upstream call for a miss is propagated identically to
every waiter of that round, the Store holds no entry for the key
afterwards (failures are never cached, no write happened), and a
subsequent request for the same key starts a fresh upstream attempt. -/
theorem dedup_failure_not_cached (cfg : ProxyConfig) (N now now' now'' c' : Nat)
    (r : Request) (err : String) (hN : 1 ≤ N) :
    (run cfg coldState (burstTrace cfg N now now' r (UpstreamResult.failure err))).delivered =
      (List.range N).map
        (fun c => (c, Delivery.fromUpstream (UpstreamResult.failure err))) ∧
    (run cfg coldState
        (burstTrace cfg N now now' r (UpstreamResult.failure err))).store.lookupRaw
      (fingerprint cfg.allow r) = none ∧
    (run cfg coldState (burstTrace cfg N now now' r (UpstreamResult.failure err))).writeLog =
      [] ∧
    (step cfg (run cfg coldState (burstTrace cfg N now now' r (UpstreamResult.failure err)))
        (PEvent.request c' now'' r)).callLog =
      [fingerprint cfg.allow r, fingerprint cfg.allow r] := by
  rw [run_burst_failure cfg N now now' r err hN]
  refine ⟨rfl, rfl, rfl, ?_⟩
  rw [step_request_create cfg
    { store := Store.empty, slots := [], callLog := [fingerprint cfg.allow r],
      writeLog := [], limiterAcquires := 1,
      delivered := (List.range N).map
        (fun c => (c, Delivery.fromUpstream (UpstreamResult.failure err))) }
    c' now'' r rfl rfl]
  rfl

/-- Witness for C5: two waiters, a network failure, then a retry. -/
theorem dedup_failure_not_cached_witness :
    1 ≤ 2 ∧
    ((run sampleProxyCfg coldState
        (burstTrace sampleProxyCfg 2 0 1 sampleReq
          (UpstreamResult.failure "network error"))).delivered =
      (List.range 2).map
        (fun c => (c, Delivery.fromUpstream (UpstreamResult.failure "network error"))) ∧
     (run sampleProxyCfg coldState
        (burstTrace sampleProxyCfg 2 0 1 sampleReq
          (UpstreamResult.failure "network error"))).store.lookupRaw
       (fingerprint sampleProxyCfg.allow sampleReq) = none ∧
     (run sampleProxyCfg coldState
        (burstTrace sampleProxyCfg 2 0 1 sampleReq
          (UpstreamResult.failure "network error"))).writeLog = [] ∧
     (step sampleProxyCfg
        (run sampleProxyCfg coldState
          (burstTrace sampleProxyCfg 2 0 1 sampleReq
            (UpstreamResult.failure "network error")))
        (PEvent.request 9 2 sampleReq)).callLog =
      [fingerprint sampleProxyCfg.allow sampleReq,
       fingerprint sampleProxyCfg.allow sampleReq]) :=
  ⟨by decide,
   dedup_failure_not_cached sampleProxyCfg 2 0 1 2 9 sampleReq "network error" (by decide)⟩

/-- C9: on a cache hit the engine serves the stored entry verbatim and
leaves the Store, the Dedup Coordinator's slots, the upstream-call log,
the write log and the Rate Limiter untouched; on a miss round exactly one
Store write occurs for the (key, successful-response) pair. -/
theorem proxy_hit_frame (cfg : ProxyConfig) (s : ProxyState) (c now : Nat)
    (r : Request) (e : CacheEntry)
    (hhit : s.store.get now (fingerprint cfg.allow r) = some e) :
    (step cfg s (PEvent.request c now r) =
       { s with delivered := s.delivered ++ [(c, Delivery.fromCache e)] } ∧
     (step cfg s (PEvent.request c now r)).store = s.store ∧
     (step cfg s (PEvent.request c now r)).slots = s.slots ∧
     (step cfg s (PEvent.request c now r)).callLog = s.callLog ∧
     (step cfg s (PEvent.request c now r)).writeLog = s.writeLog ∧
     (step cfg s (PEvent.request c now r)).limiterAcquires = s.limiterAcquires) ∧
    ∀ (N now₁ now₂ : Nat) (r₂ : Request) (resp : Response), 1 ≤ N →
      (run cfg coldState
          (burstTrace cfg N now₁ now₂ r₂ (UpstreamResult.success resp))).writeLog =
        [fingerprint cfg.allow r₂] := by
  have hstep := step_request_hit cfg s c now r e hhit
  refine ⟨⟨hstep, ?_, ?_, ?_, ?_, ?_⟩, ?_⟩
  · rw [hstep]
  · rw [hstep]
  · rw [hstep]
  · rw [hstep]
  · rw [hstep]
  · intro N now₁ now₂ r₂ resp hN
    rw [run_burst_success cfg N now₁ now₂ r₂ resp hN]

/-- A state whose store already holds the sample entry, for the hit
witness. -/
def sampleHitState : ProxyState :=
  { coldState with store := Store.empty.put sampleKey sampleEntry }

/-- Witness for C9: a hit on the sample entry at time 105 leaves
everything but the delivery list unchanged. -/
theorem proxy_hit_frame_witness :
    sampleHitState.store.get 105 (fingerprint sampleProxyCfg.allow sampleReq) =
      some sampleEntry ∧
    (step sampleProxyCfg sampleHitState (PEvent.request 0 105 sampleReq) =
       { sampleHitState with
         delivered := sampleHitState.delivered ++
           [(0, Delivery.fromCache sampleEntry)] } ∧
     (step sampleProxyCfg sampleHitState (PEvent.request 0 105 sampleReq)).store =
       sampleHitState.store ∧
     (step sampleProxyCfg sampleHitState (PEvent.request 0 105 sampleReq)).slots =
       sampleHitState.slots ∧
     (step sampleProxyCfg sampleHitState (PEvent.request 0 105 sampleReq)).callLog =
       sampleHitState.callLog ∧
     (step sampleProxyCfg sampleHitState (PEvent.request 0 105 sampleReq)).writeLog =
       sampleHitState.writeLog ∧
     (step sampleProxyCfg sampleHitState (PEvent.request 0 105 sampleReq)).limiterAcquires =
       sampleHitState.limiterAcquires) ∧
    ∀ (N now₁ now₂ : Nat) (r₂ : Request) (resp : Response), 1 ≤ N →
      (run sampleProxyCfg coldState
          (burstTrace sampleProxyCfg N now₁ now₂ r₂ (UpstreamResult.success resp))).writeLog =
        [fingerprint sampleProxyCfg.allow r₂] := by
  have h := proxy_hit_frame sampleProxyCfg sampleHitState 0 105 sampleReq sampleEntry
    (by decide)
  exact ⟨by decide, h.1, h.2⟩

/-! ### Store-failure degradation (Proxy Engine error handling) -/

/-- A Store backend failure (`StoreError`). -/
inductive StoreFault where
  | backendUnavailable
deriving DecidableEq, Repr

/-- The outcome of the cache read at the start of a request: an entry, a
clean miss, or a StoreError from the backend. -/
inductive ReadOutcome where
  | ok (v : Option CacheEntry)
  | storeError (e : StoreFault)
deriving DecidableEq, Repr

/-- The outcome of the cache write after a successful upstream call. -/
inductive WriteOutcome where
  | ok
  | storeError (e : StoreFault)
deriving DecidableEq, Repr

/-- The response served verbatim from a stored entry. -/
def entryToResponse (e : CacheEntry) : Response :=
  { status := e.status, headers := e.headers, body := e.body }

/-- Modelled from the spec: one pass of the Proxy Engine for a single
request with the backend outcomes made explicit.  Returns the
user-visible result, whether the upstream call was made, and whether an
entry was persisted.  A StoreError on read degrades to a forced miss; a
StoreError on write loses the cache entry but never the response. -/
def processRequest (read : ReadOutcome) (upstream : UpstreamResult)
    (write : WriteOutcome) : Except String Response × Bool × Bool :=
  match read with
  | .ok (some e) => (Except.ok (entryToResponse e), false, false)
  | .ok none | .storeError _ =>
    match upstream, write with
    | .success resp, .ok => (Except.ok resp, true, true)
    | .success resp, .storeError _ => (Except.ok resp, true, false)
    | .failure err, _ => (Except.error err, true, false)

/-- C10: a StoreError on the cache read behaves exactly like a clean miss
(the request degrades to the upstream call instead of failing), and a
StoreError on the cache write never turns a successful upstream response
into a user-visible error. -/
theorem storeError_degrades (e : StoreFault) (u : UpstreamResult)
    (w : WriteOutcome) (resp : Response) (read : ReadOutcome) :
    processRequest (ReadOutcome.storeError e) u w =
      processRequest (ReadOutcome.ok none) u w ∧
    (processRequest read (UpstreamResult.success resp) w).1 =
      (processRequest read (UpstreamResult.success resp) WriteOutcome.ok).1 ∧
    (processRequest (ReadOutcome.ok none) (UpstreamResult.success resp)
        (WriteOutcome.storeError e)).1 = Except.ok resp := by
  refine ⟨rfl, ?_, rfl⟩
  cases read with
  | ok v =>
    cases v with
    | none => cases w <;> rfl
    | some e₀ => rfl
  | storeError e₁ => cases w <;> rfl

end Apicache
